import Mathlib

/-
Verification of the Portfolio API backend (src/backend/main.py).

The service is a CRUD layer over an in-memory Python dict
`PROJECTS: dict[str, Project]`.  We embed the dict as an
insertion-ordered association list `Store = List (String × Project)`:
`storeGet` is `dict.get`, `storeSet` is `d[k] = v` (replace in place if
the key is present, append otherwise, matching Python dict semantics),
`storeErase` is `del d[k]`, and `storeMem` is `k in d`.

Pydantic validation (`ProjectBase`/`ProjectUpdate` with
`min_length`/`max_length` constraints) runs before a handler is
invoked; we embed the handlers exactly as written and additionally
wrap the mutating handlers in `create_endpoint`/`update_endpoint`,
which perform the pydantic check first, as FastAPI does.  Randomly
generated `uuid4` identifiers appear as explicit string parameters.
-/

/-- Embeds the pydantic `Project` model of main.py (lines 20-37):
id, title, description and a list of tags. -/
structure Project where
  id : String
  title : String
  description : String
  tags : List String
deriving Repr, DecidableEq

/-- Embeds the creation payload `ProjectCreate` (main.py lines 26-27),
which carries the three `ProjectBase` fields and no id. -/
structure ProjectCreate where
  title : String
  description : String
  tags : List String
deriving Repr, DecidableEq

/-- One field of an update payload.  Pydantic distinguishes a field
that is absent from the request body (`unset`), one set to explicit
JSON null (`null`) and one set to a value (`val`); `dict(exclude_unset=True)`
drops `unset` fields and the handler then filters out `None` values. -/
inductive FieldUpd (α : Type) where
  | unset : FieldUpd α
  | null : FieldUpd α
  | val : α → FieldUpd α
deriving Repr, DecidableEq

/-- Embeds the partial-update payload `ProjectUpdate` (main.py lines 30-33). -/
structure ProjectUpdate where
  title : FieldUpd String
  description : FieldUpd String
  tags : FieldUpd (List String)
deriving Repr, DecidableEq

/-- Embeds `Field(..., min_length=1, max_length=120)` on `title`
(main.py lines 21 and 31). -/
def validTitle (t : String) : Bool :=
  decide (1 ≤ t.length) && decide (t.length ≤ 120)

/-- Embeds `Field(..., min_length=1, max_length=2000)` on `description`
(main.py lines 22 and 32). -/
def validDescription (d : String) : Bool :=
  decide (1 ≤ d.length) && decide (d.length ≤ 2000)

/-- Pydantic acceptance of a `ProjectCreate` body: both string fields in
bounds.  `tags: List[str]` is a typing constraint, carried by the Lean
type of the `tags` field. -/
def ProjectCreate.valid (p : ProjectCreate) : Bool :=
  validTitle p.title && validDescription p.description

/-- Pydantic acceptance of one optional string field of `ProjectUpdate`:
the bounds apply only when a value is supplied; absent and explicit
null both pass. -/
def validOptField (check : String → Bool) (f : FieldUpd String) : Bool :=
  match f with
  | .unset => true
  | .null => true
  | .val s => check s

/-- Pydantic acceptance of a `ProjectUpdate` body (main.py lines 30-33). -/
def ProjectUpdate.valid (u : ProjectUpdate) : Bool :=
  validOptField validTitle u.title && validOptField validDescription u.description

/-- Well-formedness of a stored record: the bounds the data model
promises for every stored project. -/
def ProjectValid (p : Project) : Bool :=
  validTitle p.title && validDescription p.description

/-- The in-memory store `PROJECTS: dict[str, Project]` (main.py line 41),
embedded as an insertion-ordered association list. -/
abbrev Store := List (String × Project)

/-- Embeds `PROJECTS.get(k)`. -/
def storeGet (s : Store) (k : String) : Option Project :=
  match s with
  | [] => none
  | e :: rest => if e.1 = k then some e.2 else storeGet rest k

/-- Embeds `PROJECTS[k] = v`: replace in place when the key is present,
append otherwise (Python dicts keep insertion order). -/
def storeSet (s : Store) (k : String) (v : Project) : Store :=
  match s with
  | [] => [(k, v)]
  | e :: rest => if e.1 = k then (k, v) :: rest else e :: storeSet rest k v

/-- Embeds `del PROJECTS[k]`. -/
def storeErase (s : Store) (k : String) : Store :=
  match s with
  | [] => []
  | e :: rest => if e.1 = k then storeErase rest k else e :: storeErase rest k

/-- Embeds `k in PROJECTS`. -/
def storeMem (s : Store) (k : String) : Bool :=
  match s with
  | [] => false
  | e :: rest => if e.1 = k then true else storeMem rest k

/-- An HTTP response: a success with a status code and a body, or an
error with a status code and a `detail` string (as raised by
`HTTPException` or by FastAPI validation). -/
inductive HResp (α : Type) where
  | ok : Nat → α → HResp α
  | err : Nat → String → HResp α
deriving Repr, DecidableEq

/-- Embeds the handler `list_projects` (main.py lines 84-86):
returns `list(PROJECTS.values())` with status 200 and does not touch
the store. -/
def list_projects (s : Store) : HResp (List Project) × Store :=
  (.ok 200 (s.map Prod.snd), s)

/-- Embeds the handler `create_project` (main.py lines 89-94): build a
`Project` from a fresh identifier and the payload fields, store it
under the identifier, return it with status 201. -/
def create_project (s : Store) (freshId : String) (payload : ProjectCreate) :
    HResp Project × Store :=
  let project : Project :=
    { id := freshId, title := payload.title,
      description := payload.description, tags := payload.tags }
  (.ok 201 project, storeSet s freshId project)

/-- The POST /api/projects endpoint: pydantic validates the body before
`create_project` runs; an out-of-bounds field yields a 422 and the
handler is never entered. -/
def create_endpoint (s : Store) (freshId : String) (payload : ProjectCreate) :
    HResp Project × Store :=
  if payload.valid then create_project s freshId payload
  else (.err 422 "validation error", s)

/-- Embeds the handler `get_project` (main.py lines 97-102): look the
identifier up; raise 404 "Project not found" when absent (a pydantic
model instance is always truthy, so `if not project` tests for `None`). -/
def get_project (s : Store) (pid : String) : HResp Project × Store :=
  match storeGet s pid with
  | some project => (.ok 200 project, s)
  | none => (.err 404 "Project not found", s)

/-- One field of the merge in `update_project` (main.py lines 111-113):
`data.update({k: v for k, v in updates.items() if v is not None})`
with `updates = payload.dict(exclude_unset=True)` — an unset field is
excluded from `updates`, an explicit null is filtered out by the
comprehension, so only a supplied value overwrites the old one. -/
def applyField {α : Type} (f : FieldUpd α) (old : α) : α :=
  match f with
  | .val a => a
  | _ => old

/-- Embeds the handler `update_project` (main.py lines 105-116): 404
when the identifier is absent; otherwise merge the non-null supplied
fields over the stored record (the id comes from `project.dict()` and
is never in `updates`, so it is preserved), store and return the
merged record. -/
def update_project (s : Store) (pid : String) (payload : ProjectUpdate) :
    HResp Project × Store :=
  match storeGet s pid with
  | none => (.err 404 "Project not found", s)
  | some project =>
      let updated : Project :=
        { id := project.id,
          title := applyField payload.title project.title,
          description := applyField payload.description project.description,
          tags := applyField payload.tags project.tags }
      (.ok 200 updated, storeSet s pid updated)

/-- The PUT/PATCH /api/projects/\x7bid\x7d endpoint: pydantic validates
the partial body before `update_project` runs. -/
def update_endpoint (s : Store) (pid : String) (payload : ProjectUpdate) :
    HResp Project × Store :=
  if payload.valid then update_project s pid payload
  else (.err 422 "validation error", s)

/-- Embeds the handler `delete_project` (main.py lines 119-124): 404
when the identifier is absent, otherwise delete the entry and answer
204 with an empty body (`return None`). -/
def delete_project (s : Store) (pid : String) : HResp Unit × Store :=
  if storeMem s pid then (.ok 204 (), storeErase s pid)
  else (.err 404 "Project not found", s)

/-- The three fixed example records of `seed_data` (main.py lines
47-66), parameterised by the three generated `uuid4` strings. -/
def exampleProjects (id1 id2 id3 : String) : List Project :=
  [ { id := id1,
      title := "Midnight Dashboard",
      description := "Clean analytics hub with high-contrast dark UI and buttery transitions.",
      tags := ["React", "Framer Motion", "A11y"] },
    { id := id2,
      title := "Aurora Docs",
      description := "Documentation site with focus-first typography and instant search.",
      tags := ["Content", "Search", "Dark Mode"] },
    { id := id3,
      title := "Shadow Commerce",
      description := "Performance-first storefront with snappy filters and crisp accents.",
      tags := ["Performance", "UI/UX", "E-commerce"] } ]

/-- Embeds `seed_data` (main.py lines 44-68): a no-op when the store is
non-empty, otherwise `PROJECTS[p.id] = p` for each example record. -/
def seed_data (s : Store) (id1 id2 id3 : String) : Store :=
  if s.isEmpty then
    (exampleProjects id1 id2 id3).foldl (fun acc p => storeSet acc p.id p) s
  else s

/-- One client request against the API, with the generated identifier
of a create made explicit. -/
inductive Request where
  | createReq : String → ProjectCreate → Request
  | getReq : String → Request
  | updateReq : String → ProjectUpdate → Request
  | deleteReq : String → Request
  | listReq : Request

/-- The store after serving one request (validated endpoints for the
mutating routes, exactly the pipeline FastAPI runs). -/
def stepStore (s : Store) (r : Request) : Store :=
  match r with
  | .createReq freshId payload => (create_endpoint s freshId payload).2
  | .getReq pid => (get_project s pid).2
  | .updateReq pid payload => (update_endpoint s pid payload).2
  | .deleteReq pid => (delete_project s pid).2
  | .listReq => (list_projects s).2

/-- A store state is reachable when it arises from seeding the empty
store at startup (main.py line 71) followed by any request sequence. -/
def Reachable (s : Store) : Prop :=
  ∃ id1 id2 id3 rs, s = List.foldl stepStore (seed_data [] id1 id2 id3) rs

/-- Every stored record satisfies the data-model bounds. -/
def StoreValid (s : Store) : Prop :=
  ∀ e ∈ s, ProjectValid e.2 = true

/-- Every record is stored under its own id. -/
def StoreKeyed (s : Store) : Prop :=
  ∀ e ∈ s, e.1 = e.2.id

/-- A concrete record used to exercise the handlers. -/
def demoProject : Project :=
  { id := "p1", title := "T", description := "D", tags := ["x"] }

/-- A concrete one-entry store used to exercise the handlers. -/
def demoStore : Store := [("p1", demoProject)]

theorem storeGet_storeSet_self (s : Store) (k : String) (v : Project) :
    storeGet (storeSet s k v) k = some v := by
  induction s with
  | nil => simp [storeSet, storeGet]
  | cons e rest ih =>
      by_cases h : e.1 = k
      · simp [storeSet, storeGet, h]
      · simp [storeSet, storeGet, h, ih]

theorem storeGet_storeSet_ne (s : Store) (k k' : String) (v : Project)
    (h : k' ≠ k) : storeGet (storeSet s k v) k' = storeGet s k' := by
  induction s with
  | nil => simp [storeSet, storeGet, Ne.symm h]
  | cons e rest ih =>
      by_cases he : e.1 = k
      · subst he
        simp [storeSet, storeGet, Ne.symm h, fun hh : e.1 = k' => h hh.symm]
      · simp only [storeSet, if_neg he, storeGet]
        by_cases he' : e.1 = k'
        · simp [he']
        · simp [he', ih]

theorem storeGet_storeErase_self (s : Store) (k : String) :
    storeGet (storeErase s k) k = none := by
  induction s with
  | nil => simp [storeErase, storeGet]
  | cons e rest ih =>
      by_cases h : e.1 = k
      · simp [storeErase, h, ih]
      · simp [storeErase, storeGet, h, ih]

theorem storeGet_storeErase_ne (s : Store) (k k' : String) (h : k' ≠ k) :
    storeGet (storeErase s k) k' = storeGet s k' := by
  induction s with
  | nil => simp [storeErase]
  | cons e rest ih =>
      by_cases he : e.1 = k
      · simp [storeErase, storeGet, he, Ne.symm h, ih]
      · simp only [storeErase, if_neg he, storeGet]
        by_cases he' : e.1 = k'
        · simp [he']
        · simp [he', ih]

theorem storeMem_eq_false_of_none (s : Store) (k : String)
    (h : storeGet s k = none) : storeMem s k = false := by
  induction s with
  | nil => simp [storeMem]
  | cons e rest ih =>
      by_cases he : e.1 = k
      · simp [storeGet, he] at h
      · simp [storeGet, he] at h
        simp [storeMem, he, ih h]

theorem storeMem_eq_true_of_some (s : Store) (k : String) (v : Project)
    (h : storeGet s k = some v) : storeMem s k = true := by
  induction s with
  | nil => simp [storeGet] at h
  | cons e rest ih =>
      by_cases he : e.1 = k
      · simp [storeMem, he]
      · simp [storeGet, he] at h
        simp [storeMem, he, ih h]

theorem mem_of_storeGet_some (s : Store) (k : String) (v : Project)
    (h : storeGet s k = some v) : (k, v) ∈ s := by
  induction s with
  | nil => simp [storeGet] at h
  | cons e rest ih =>
      by_cases he : e.1 = k
      · simp [storeGet, he] at h
        have hkv : (k, v) = e := by rw [← he, ← h]
        rw [hkv]
        exact List.mem_cons_self e rest
      · simp [storeGet, he] at h
        exact List.mem_cons_of_mem _ (ih h)

theorem mem_storeSet (s : Store) (k : String) (v : Project)
    (e : String × Project) (h : e ∈ storeSet s k v) : e = (k, v) ∨ e ∈ s := by
  induction s with
  | nil => simpa [storeSet] using h
  | cons e0 rest ih =>
      by_cases he : e0.1 = k
      · simp only [storeSet, if_pos he] at h
        rcases List.mem_cons.mp h with h1 | h1
        · exact Or.inl h1
        · exact Or.inr (List.mem_cons_of_mem _ h1)
      · simp only [storeSet, if_neg he] at h
        rcases List.mem_cons.mp h with h1 | h1
        · exact Or.inr (h1 ▸ List.mem_cons_self _ _)
        · rcases ih h1 with h2 | h2
          · exact Or.inl h2
          · exact Or.inr (List.mem_cons_of_mem _ h2)

theorem mem_storeErase (s : Store) (k : String)
    (e : String × Project) (h : e ∈ storeErase s k) : e ∈ s ∧ e.1 ≠ k := by
  induction s with
  | nil => simp [storeErase] at h
  | cons e0 rest ih =>
      by_cases he : e0.1 = k
      · simp only [storeErase, if_pos he] at h
        exact ⟨List.mem_cons_of_mem _ (ih h).1, (ih h).2⟩
      · simp only [storeErase, if_neg he] at h
        rcases List.mem_cons.mp h with h1 | h1
        · exact ⟨h1 ▸ List.mem_cons_self _ _, h1 ▸ he⟩
        · exact ⟨List.mem_cons_of_mem _ (ih h1).1, (ih h1).2⟩

theorem mem_foldl_storeSet (ps : List Project) (s : Store) (e : String × Project)
    (h : e ∈ ps.foldl (fun acc p => storeSet acc p.id p) s) :
    (∃ p ∈ ps, e = (p.id, p)) ∨ e ∈ s := by
  induction ps generalizing s with
  | nil => exact Or.inr h
  | cons p rest ih =>
      simp only [List.foldl_cons] at h
      rcases ih (storeSet s p.id p) h with h1 | h1
      · rcases h1 with ⟨q, hq, he⟩
        exact Or.inl ⟨q, List.mem_cons_of_mem _ hq, he⟩
      · rcases mem_storeSet s p.id p e h1 with h2 | h2
        · exact Or.inl ⟨p, List.mem_cons_self _ _, h2⟩
        · exact Or.inr h2

theorem valid_applyField (check : String → Bool) (f : FieldUpd String) (old : String)
    (hf : validOptField check f = true) (hold : check old = true) :
    check (applyField f old) = true := by
  cases f <;> simp_all [validOptField, applyField]

theorem storeValid_storeSet (s : Store) (k : String) (v : Project)
    (hs : StoreValid s) (hv : ProjectValid v = true) :
    StoreValid (storeSet s k v) := by
  intro e he
  rcases mem_storeSet s k v e he with h | h
  · rw [h]
    exact hv
  · exact hs e h

theorem storeValid_storeErase (s : Store) (k : String) (hs : StoreValid s) :
    StoreValid (storeErase s k) := by
  intro e he
  exact hs e (mem_storeErase s k e he).1

theorem storeValid_step (s : Store) (r : Request) (hs : StoreValid s) :
    StoreValid (stepStore s r) := by
  cases r with
  | createReq freshId payload =>
      simp only [stepStore, create_endpoint]
      by_cases hv : payload.valid = true
      · simp only [if_pos hv, create_project]
        apply storeValid_storeSet _ _ _ hs
        simpa [ProjectValid, ProjectCreate.valid] using hv
      · simpa [hv] using hs
  | getReq pid =>
      simp only [stepStore, get_project]
      cases hget : storeGet s pid <;> simpa [hget] using hs
  | updateReq pid payload =>
      simp only [stepStore, update_endpoint]
      by_cases hv : payload.valid = true
      · simp only [if_pos hv, update_project]
        cases hget : storeGet s pid with
        | none => simpa [hget] using hs
        | some project =>
            simp only [hget]
            apply storeValid_storeSet _ _ _ hs
            have hp : ProjectValid project = true :=
              hs _ (mem_of_storeGet_some s pid project hget)
            simp only [ProjectValid, Bool.and_eq_true] at hp ⊢
            simp only [ProjectUpdate.valid, Bool.and_eq_true] at hv
            exact ⟨valid_applyField _ _ _ hv.1 hp.1, valid_applyField _ _ _ hv.2 hp.2⟩
      · simpa [hv] using hs
  | deleteReq pid =>
      simp only [stepStore, delete_project]
      by_cases hm : storeMem s pid = true
      · simpa [hm] using storeValid_storeErase s pid hs
      · simpa [hm] using hs
  | listReq => simpa [stepStore, list_projects] using hs

theorem ProjectValid_mk (i t d : String) (g : List String) :
    ProjectValid { id := i, title := t, description := d, tags := g } =
      (validTitle t && validDescription d) := rfl

theorem storeValid_seed (id1 id2 id3 : String) :
    StoreValid (seed_data [] id1 id2 id3) := by
  intro e he
  simp only [seed_data, List.isEmpty, if_pos] at he
  rcases mem_foldl_storeSet _ _ _ he with ⟨p, hp, hep⟩ | h
  · have h2 : e.2 = p := by rw [hep]
    rw [h2]
    simp only [exampleProjects, List.mem_cons, List.not_mem_nil, or_false] at hp
    rcases hp with h1 | h1 | h1 <;> rw [h1, ProjectValid_mk] <;> decide
  · simp at h

theorem storeValid_run (rs : List Request) (s0 : Store) (h : StoreValid s0) :
    StoreValid (List.foldl stepStore s0 rs) := by
  induction rs generalizing s0 with
  | nil => exact h
  | cons r rest ih => exact ih _ (storeValid_step s0 r h)

theorem storeKeyed_storeSet (s : Store) (k : String) (v : Project)
    (hs : StoreKeyed s) (hv : k = v.id) : StoreKeyed (storeSet s k v) := by
  intro e he
  rcases mem_storeSet s k v e he with h | h
  · rw [h]
    exact hv
  · exact hs e h

theorem storeKeyed_step (s : Store) (r : Request) (hs : StoreKeyed s) :
    StoreKeyed (stepStore s r) := by
  cases r with
  | createReq freshId payload =>
      simp only [stepStore, create_endpoint]
      by_cases hv : payload.valid = true
      · simp only [if_pos hv, create_project]
        exact storeKeyed_storeSet _ _ _ hs rfl
      · simpa [hv] using hs
  | getReq pid =>
      simp only [stepStore, get_project]
      cases hget : storeGet s pid <;> simpa [hget] using hs
  | updateReq pid payload =>
      simp only [stepStore, update_endpoint]
      by_cases hv : payload.valid = true
      · simp only [if_pos hv, update_project]
        cases hget : storeGet s pid with
        | none => simpa [hget] using hs
        | some project =>
            simp only [hget]
            have hpid : pid = project.id :=
              hs _ (mem_of_storeGet_some s pid project hget)
            exact storeKeyed_storeSet _ _ _ hs hpid
      · simpa [hv] using hs
  | deleteReq pid =>
      simp only [stepStore, delete_project]
      by_cases hm : storeMem s pid = true
      · simp only [if_pos hm]
        intro e he
        exact hs e (mem_storeErase s pid e he).1
      · simpa [hm] using hs
  | listReq => simpa [stepStore, list_projects] using hs

theorem storeKeyed_seed (id1 id2 id3 : String) :
    StoreKeyed (seed_data [] id1 id2 id3) := by
  intro e he
  simp only [seed_data, List.isEmpty, if_pos] at he
  rcases mem_foldl_storeSet _ _ _ he with ⟨p, hp, hep⟩ | h
  · rw [hep]
  · simp at h

theorem storeKeyed_run (rs : List Request) (s0 : Store) (h : StoreKeyed s0) :
    StoreKeyed (List.foldl stepStore s0 rs) := by
  induction rs generalizing s0 with
  | nil => exact h
  | cons r rest ih => exact ih _ (storeKeyed_step s0 r h)

/-- C1: for every creation payload that passes validation, `create_project`
inserts the record and returns it with status 201, and an immediate
`get_project` on the returned id yields a record whose title, description
and tags equal the payload's and whose id is the generated identifier,
which is non-empty (a canonical `uuid4` string is never empty, which we
carry as the hypothesis on the generated identifier). -/
theorem c1_create_then_get (s : Store) (freshId : String) (payload : ProjectCreate)
    (hvalid : payload.valid = true) (hfresh : freshId ≠ "") :
    ∃ p s2,
      create_endpoint s freshId payload = (.ok 201 p, s2) ∧
      get_project s2 p.id = (.ok 200 p, s2) ∧
      p.title = payload.title ∧
      p.description = payload.description ∧
      p.tags = payload.tags ∧
      p.id = freshId ∧
      p.id ≠ "" := by
  refine ⟨Project.mk freshId payload.title payload.description payload.tags,
    storeSet s freshId (Project.mk freshId payload.title payload.description payload.tags),
    ?_, ?_, rfl, rfl, rfl, rfl, hfresh⟩
  · simp [create_endpoint, hvalid, create_project]
  · simp [get_project, storeGet_storeSet_self]

/-- Witness for C1 at a concrete payload and identifier. -/
theorem c1_witness :
    ∃ p s2,
      create_endpoint [] "u1" ⟨"X", "Y", ["a"]⟩ = (.ok 201 p, s2) ∧
      get_project s2 p.id = (.ok 200 p, s2) ∧
      p.title = "X" ∧
      p.description = "Y" ∧
      p.tags = ["a"] ∧
      p.id = "u1" ∧
      p.id ≠ "" :=
  c1_create_then_get [] "u1" ⟨"X", "Y", ["a"]⟩ (by decide) (by decide)

/-- C2: for every identifier absent from the store, `get_project`,
`update_project` and `delete_project` each answer 404 with detail
"Project not found" and leave the store unchanged. -/
theorem c2_unknown_id_404 (s : Store) (pid : String) (payload : ProjectUpdate)
    (h : storeGet s pid = none) :
    get_project s pid = (.err 404 "Project not found", s) ∧
    update_project s pid payload = (.err 404 "Project not found", s) ∧
    delete_project s pid = (.err 404 "Project not found", s) := by
  refine ⟨?_, ?_, ?_⟩
  · simp [get_project, h]
  · simp [update_project, h]
  · simp [delete_project, storeMem_eq_false_of_none s pid h]

/-- Witness for C2 on the empty store. -/
theorem c2_witness :
    get_project [] "z" = (.err 404 "Project not found", []) ∧
    update_project [] "z" ⟨.unset, .unset, .unset⟩ = (.err 404 "Project not found", []) ∧
    delete_project [] "z" = (.err 404 "Project not found", []) :=
  c2_unknown_id_404 [] "z" ⟨.unset, .unset, .unset⟩ (by decide)

/-- C3: for every stored project and valid new title, updating with a
payload carrying only the title stores and returns a record with the new
title and the id, description and tags of the old record. -/
theorem c3_update_title_only (s : Store) (pid t2 : String) (p : Project)
    (hp : storeGet s pid = some p) (ht : validTitle t2 = true) :
    ∃ q,
      update_endpoint s pid ⟨.val t2, .unset, .unset⟩ = (.ok 200 q, storeSet s pid q) ∧
      get_project (storeSet s pid q) pid = (.ok 200 q, storeSet s pid q) ∧
      q.title = t2 ∧
      q.id = p.id ∧
      q.description = p.description ∧
      q.tags = p.tags := by
  refine ⟨{ id := p.id, title := t2, description := p.description, tags := p.tags },
    ?_, ?_, rfl, rfl, rfl, rfl⟩
  · simp [update_endpoint, ProjectUpdate.valid, validOptField, ht,
      update_project, hp, applyField]
  · simp [get_project, storeGet_storeSet_self]

/-- Witness for C3 on the demo store. -/
theorem c3_witness :
    ∃ q,
      update_endpoint demoStore "p1" ⟨.val "T2", .unset, .unset⟩ =
        (.ok 200 q, storeSet demoStore "p1" q) ∧
      get_project (storeSet demoStore "p1" q) "p1" = (.ok 200 q, storeSet demoStore "p1" q) ∧
      q.title = "T2" ∧
      q.id = demoProject.id ∧
      q.description = demoProject.description ∧
      q.tags = demoProject.tags :=
  c3_update_title_only demoStore "p1" "T2" demoProject (by decide) (by decide)

/-- C4: for every stored project and update payload reaching the handler,
a field that is unset or explicit null leaves the stored value unchanged,
only a field supplied with a value overwrites it, the id is preserved,
and the merged record is stored and returned with status 200. -/
theorem c4_update_merge (s : Store) (pid : String) (p : Project) (payload : ProjectUpdate)
    (hp : storeGet s pid = some p) :
    ∃ q,
      update_project s pid payload = (.ok 200 q, storeSet s pid q) ∧
      q.id = p.id ∧
      ((payload.title = .unset ∨ payload.title = .null) → q.title = p.title) ∧
      (∀ t, payload.title = .val t → q.title = t) ∧
      ((payload.description = .unset ∨ payload.description = .null) →
        q.description = p.description) ∧
      (∀ d, payload.description = .val d → q.description = d) ∧
      ((payload.tags = .unset ∨ payload.tags = .null) → q.tags = p.tags) ∧
      (∀ g, payload.tags = .val g → q.tags = g) := by
  refine ⟨{ id := p.id, title := applyField payload.title p.title,
            description := applyField payload.description p.description,
            tags := applyField payload.tags p.tags },
    ?_, rfl, ?_, ?_, ?_, ?_, ?_, ?_⟩
  · simp [update_project, hp]
  · rintro (h | h) <;> simp [h, applyField]
  · intro t h
    simp [h, applyField]
  · rintro (h | h) <;> simp [h, applyField]
  · intro d h
    simp [h, applyField]
  · rintro (h | h) <;> simp [h, applyField]
  · intro g h
    simp [h, applyField]

/-- Witness for C4 on the demo store with a mixed payload. -/
theorem c4_witness :
    ∃ q,
      update_project demoStore "p1" ⟨.unset, .null, .val ["y"]⟩ =
        (.ok 200 q, storeSet demoStore "p1" q) ∧
      q.id = demoProject.id ∧
      (((⟨.unset, .null, .val ["y"]⟩ : ProjectUpdate).title = .unset ∨
        (⟨.unset, .null, .val ["y"]⟩ : ProjectUpdate).title = .null) →
        q.title = demoProject.title) ∧
      (∀ t, (⟨.unset, .null, .val ["y"]⟩ : ProjectUpdate).title = .val t → q.title = t) ∧
      (((⟨.unset, .null, .val ["y"]⟩ : ProjectUpdate).description = .unset ∨
        (⟨.unset, .null, .val ["y"]⟩ : ProjectUpdate).description = .null) →
        q.description = demoProject.description) ∧
      (∀ d, (⟨.unset, .null, .val ["y"]⟩ : ProjectUpdate).description = .val d →
        q.description = d) ∧
      (((⟨.unset, .null, .val ["y"]⟩ : ProjectUpdate).tags = .unset ∨
        (⟨.unset, .null, .val ["y"]⟩ : ProjectUpdate).tags = .null) →
        q.tags = demoProject.tags) ∧
      (∀ g, (⟨.unset, .null, .val ["y"]⟩ : ProjectUpdate).tags = .val g → q.tags = g) :=
  c4_update_merge demoStore "p1" demoProject ⟨.unset, .null, .val ["y"]⟩ (by decide)

/-- C5: seeding is a no-op on a non-empty store; on the empty store it
inserts exactly the three fixed example records (under their three
distinct freshly generated ids), so `list_projects` right after startup
returns exactly those 3 projects, and seeding again changes nothing. -/
theorem c5_seed_idempotent (id1 id2 id3 : String)
    (h12 : id1 ≠ id2) (h13 : id1 ≠ id3) (h23 : id2 ≠ id3) :
    (∀ s : Store, s ≠ [] → seed_data s id1 id2 id3 = s) ∧
    (list_projects (seed_data [] id1 id2 id3)).1 =
      .ok 200 (exampleProjects id1 id2 id3) ∧
    (exampleProjects id1 id2 id3).length = 3 ∧
    seed_data (seed_data [] id1 id2 id3) id1 id2 id3 = seed_data [] id1 id2 id3 := by
  have hne : ∀ s : Store, s ≠ [] → seed_data s id1 id2 id3 = s := by
    intro s hs
    cases s with
    | nil => exact absurd rfl hs
    | cons e rest => simp [seed_data]
  have hseeded : seed_data [] id1 id2 id3 ≠ [] := by
    simp [seed_data, exampleProjects, storeSet, h12, h13, h23]
  exact ⟨hne, by simp [seed_data, exampleProjects, storeSet, list_projects, h12, h13, h23],
    rfl, hne _ hseeded⟩

/-- Witness for C5 at three concrete distinct identifiers. -/
theorem c5_witness :
    (∀ s : Store, s ≠ [] → seed_data s "a" "b" "c" = s) ∧
    (list_projects (seed_data [] "a" "b" "c")).1 = .ok 200 (exampleProjects "a" "b" "c") ∧
    (exampleProjects "a" "b" "c").length = 3 ∧
    seed_data (seed_data [] "a" "b" "c") "a" "b" "c" = seed_data [] "a" "b" "c" :=
  c5_seed_idempotent "a" "b" "c" (by decide) (by decide) (by decide)

/-- C6: a creation payload that fails validation (empty or overlong
title, or any out-of-bounds field; `tags` being a list of strings is
enforced by the payload type itself) is rejected with a 422 error, the
store is not mutated, and the subsequent project list is unchanged, so
no new record appears in it. -/
theorem c6_invalid_create_rejected (s : Store) (freshId : String) (payload : ProjectCreate)
    (h : payload.valid = false) :
    create_endpoint s freshId payload = (.err 422 "validation error", s) ∧
    list_projects (create_endpoint s freshId payload).2 = list_projects s ∧
    ∀ q : Project, q ∈ ((create_endpoint s freshId payload).2).map Prod.snd →
      q ∈ s.map Prod.snd := by
  have h1 : create_endpoint s freshId payload = (.err 422 "validation error", s) := by
    simp [create_endpoint, h]
  refine ⟨h1, by rw [h1], ?_⟩
  rw [h1]
  intro q hq
  exact hq

/-- Witness for C6 at an empty-title payload. -/
theorem c6_witness :
    create_endpoint [] "u1" ⟨"", "Y", []⟩ = (.err 422 "validation error", []) ∧
    list_projects (create_endpoint [] "u1" ⟨"", "Y", []⟩).2 = list_projects [] ∧
    ∀ q : Project, q ∈ ((create_endpoint [] "u1" ⟨"", "Y", []⟩).2).map Prod.snd →
      q ∈ ([] : Store).map Prod.snd :=
  c6_invalid_create_rejected [] "u1" ⟨"", "Y", []⟩ (by decide)

/-- C7: deleting a stored identifier answers 204 with an empty body and
removes the entry, so a subsequent `get_project` on it answers 404 and
the record no longer appears in `list_projects` (stores reachable from
the handlers keep every record under its own id, which is the
`StoreKeyed` hypothesis). -/
theorem c7_delete_removes (s : Store) (pid : String) (p : Project)
    (hkeyed : StoreKeyed s) (hp : storeGet s pid = some p) :
    delete_project s pid = (.ok 204 (), storeErase s pid) ∧
    get_project (storeErase s pid) pid = (.err 404 "Project not found", storeErase s pid) ∧
    (list_projects (storeErase s pid)).1 = .ok 200 ((storeErase s pid).map Prod.snd) ∧
    p ∉ (storeErase s pid).map Prod.snd := by
  refine ⟨?_, ?_, rfl, ?_⟩
  · simp [delete_project, storeMem_eq_true_of_some s pid p hp]
  · simp [get_project, storeGet_storeErase_self]
  · intro hq
    rcases List.mem_map.mp hq with ⟨e, he, he2⟩
    rcases mem_storeErase s pid e he with ⟨hes, hne⟩
    have h1 : e.1 = p.id := by rw [hkeyed e hes, he2]
    have h2 : pid = p.id := hkeyed (pid, p) (mem_of_storeGet_some s pid p hp)
    exact hne (h1.trans h2.symm)

/-- Witness for C7 on the demo store. -/
theorem c7_witness :
    delete_project demoStore "p1" = (.ok 204 (), storeErase demoStore "p1") ∧
    get_project (storeErase demoStore "p1") "p1" =
      (.err 404 "Project not found", storeErase demoStore "p1") ∧
    (list_projects (storeErase demoStore "p1")).1 =
      .ok 200 ((storeErase demoStore "p1").map Prod.snd) ∧
    demoProject ∉ (storeErase demoStore "p1").map Prod.snd :=
  c7_delete_removes demoStore "p1" demoProject
    (by intro e he
        simp only [demoStore, List.mem_singleton] at he
        subst he
        simp [demoProject])
    (by decide)

/-- C8: in every reachable store state (seeded at startup, then any
sequence of requests), every stored record has a non-empty title of at
most 120 characters and a non-empty description of at most 2000
characters, i.e. satisfies `ProjectValid`. -/
theorem c8_reachable_store_valid (s : Store) (h : Reachable s) :
    ∀ e ∈ s, ProjectValid e.2 = true := by
  rcases h with ⟨id1, id2, id3, rs, rfl⟩
  exact storeValid_run rs _ (storeValid_seed id1 id2 id3)

/-- Witness for C8 at the first entry of a freshly seeded store. -/
theorem c8_witness :
    ProjectValid ("a", Project.mk "a" "Midnight Dashboard"
      "Clean analytics hub with high-contrast dark UI and buttery transitions."
      ["React", "Framer Motion", "A11y"]).2 = true :=
  c8_reachable_store_valid (seed_data [] "a" "b" "c") ⟨"a", "b", "c", [], rfl⟩
    ("a", Project.mk "a" "Midnight Dashboard"
      "Clean analytics hub with high-contrast dark UI and buttery transitions."
      ["React", "Framer Motion", "A11y"]) (by decide)

/-- C9: in every reachable store state, each record is stored under its
own id: creation and seeding key each record by its id and the update
merge preserves the stored id. -/
theorem c9_reachable_store_keyed (s : Store) (h : Reachable s) :
    ∀ e ∈ s, e.1 = e.2.id := by
  rcases h with ⟨id1, id2, id3, rs, rfl⟩
  exact storeKeyed_run rs _ (storeKeyed_seed id1 id2 id3)

/-- Witness for C9 at the first entry of a freshly seeded store. -/
theorem c9_witness :
    ("x", Project.mk "x" "Midnight Dashboard"
      "Clean analytics hub with high-contrast dark UI and buttery transitions."
      ["React", "Framer Motion", "A11y"]).1 =
    ("x", Project.mk "x" "Midnight Dashboard"
      "Clean analytics hub with high-contrast dark UI and buttery transitions."
      ["React", "Framer Motion", "A11y"]).2.id :=
  c9_reachable_store_keyed (seed_data [] "x" "y" "z") ⟨"x", "y", "z", [], rfl⟩
    ("x", Project.mk "x" "Midnight Dashboard"
      "Clean analytics hub with high-contrast dark UI and buttery transitions."
      ["React", "Framer Motion", "A11y"]) (by decide)

/-- C10: `list_projects` and `get_project` leave the store exactly as it
was, and `create_endpoint`, `update_endpoint` and `delete_project`
leave every entry other than the affected identifier unchanged. -/
theorem c10_read_only_and_frame (s : Store) (pid freshId k : String)
    (cp : ProjectCreate) (up : ProjectUpdate)
    (hk1 : k ≠ freshId) (hk2 : k ≠ pid) :
    (list_projects s).2 = s ∧
    (get_project s pid).2 = s ∧
    storeGet (create_endpoint s freshId cp).2 k = storeGet s k ∧
    storeGet (update_endpoint s pid up).2 k = storeGet s k ∧
    storeGet (delete_project s pid).2 k = storeGet s k := by
  refine ⟨rfl, ?_, ?_, ?_, ?_⟩
  · cases hget : storeGet s pid <;> simp [get_project, hget]
  · by_cases hv : cp.valid = true
    · simp only [create_endpoint, if_pos hv, create_project]
      exact storeGet_storeSet_ne s freshId k _ hk1
    · simp [create_endpoint, hv]
  · by_cases hv : up.valid = true
    · simp only [update_endpoint, if_pos hv, update_project]
      cases hget : storeGet s pid with
      | none => simp [hget]
      | some project =>
          simp only [hget]
          exact storeGet_storeSet_ne s pid k _ hk2
    · simp [update_endpoint, hv]
  · by_cases hm : storeMem s pid = true
    · simp only [delete_project, if_pos hm]
      exact storeGet_storeErase_ne s pid k hk2
    · simp [delete_project, hm]

/-- Witness for C10 on the demo store at an unaffected key. -/
theorem c10_witness :
    (list_projects demoStore).2 = demoStore ∧
    (get_project demoStore "p1").2 = demoStore ∧
    storeGet (create_endpoint demoStore "u2" ⟨"X", "Y", []⟩).2 "q" = storeGet demoStore "q" ∧
    storeGet (update_endpoint demoStore "p1" ⟨.unset, .unset, .unset⟩).2 "q" =
      storeGet demoStore "q" ∧
    storeGet (delete_project demoStore "p1").2 "q" = storeGet demoStore "q" :=
  c10_read_only_and_frame demoStore "p1" "u2" "q" ⟨"X", "Y", []⟩ ⟨.unset, .unset, .unset⟩
    (by decide) (by decide)
